import Mathlib

/-!
Verification of the batching / retry / dead-letter core of the
5G-network-manager repository.

Shallow embedding of:
  app/core/error_handling.py  (async_retry, sync_retry, DeadLetterQueue)
  app/core/batch_processor.py (BatchProcessor and its background drain loop)
  app/core/websocket_client.py (WebSocketClient._handle_reconnect)

Conventions:
  - machine floats / wall-clock seconds are modelled as rationals;
  - the random jitter draws are modelled as explicit parameters;
  - the module-level `settings` object is modelled as an `AppSettings`
    record holding exactly the attributes these modules read;
  - asyncio cooperative scheduling is modelled by running the drain task
    to its next suspension point (condition wait or task exit) at every
    notification, which serialises producer events and drain steps the
    way the single event loop does.
-/

/-! ## Retry-with-backoff primitive (error_handling.py, lines 29-176)

`async_retry` (lines 55-100) and `sync_retry` (lines 131-174) wrap a
workload in the same loop; the only difference is `await asyncio.sleep`
versus `time.sleep`, which the embedding abstracts into a recorded sleep
list.  `retryRun` embeds that shared loop body. -/

/-- Result of one run of the retry wrapper: normal return, terminal
MaxRetriesExceededError carrying the last exception, an exception outside
the accepted set propagating immediately, or the unreachable RuntimeError
after the loop (error_handling.py line 98). -/
inductive RetryOutcome (E A : Type) where
  | ok : A → RetryOutcome E A
  | maxRetriesExceeded : E → RetryOutcome E A
  | uncaught : E → RetryOutcome E A
  | runtimeError : RetryOutcome E A
  deriving DecidableEq

/-- Observable trace of one run of the retry wrapper: the outcome, how many
times the wrapped workload was invoked, and the computed sleep times in
order. -/
structure RetryTrace (E A : Type) where
  outcome : RetryOutcome E A
  invocations : Nat
  sleeps : List ℚ
  deriving DecidableEq

/-- The `for attempt in range(max_retries + 1)` loop of async_retry /
sync_retry.  `accept` is the `exceptions` filter; `work attempt` is the
wrapped call at that attempt index; `jitter attempt` is the value drawn by
`random.uniform(0.5, 1.5)` on that iteration.  `fuel` counts the loop
iterations still allowed (`max_retries + 1` at entry). -/
def retryAux {E A : Type} (accept : E → Bool) (work : Nat → Except E A)
    (maxRetries : Nat) (maxDelay factor : ℚ) (jitter : Nat → ℚ) :
    Nat → Nat → ℚ → RetryTrace E A
  | 0, _, _ => ⟨RetryOutcome.runtimeError, 0, []⟩
  | fuel + 1, attempt, delay =>
    match work attempt with
    | Except.ok a => ⟨RetryOutcome.ok a, 1, []⟩
    | Except.error e =>
      if accept e then
        if attempt = maxRetries then
          ⟨RetryOutcome.maxRetriesExceeded e, 1, []⟩
        else
          let sleepTime := min (delay * jitter attempt) maxDelay
          let rest := retryAux accept work maxRetries maxDelay factor jitter
            fuel (attempt + 1) (delay * factor)
          ⟨rest.outcome, rest.invocations + 1, sleepTime :: rest.sleeps⟩
      else ⟨RetryOutcome.uncaught e, 1, []⟩

/-- One full run of the retry wrapper with the given parameters, starting
at attempt 0 with `delay = initial_delay` and `max_retries + 1` loop
iterations available. -/
def retryRun {E A : Type} (accept : E → Bool) (work : Nat → Except E A)
    (maxRetries : Nat) (initialDelay maxDelay factor : ℚ) (jitter : Nat → ℚ) :
    RetryTrace E A :=
  retryAux accept work maxRetries maxDelay factor jitter
    (maxRetries + 1) 0 initialDelay

/-! ## Settings and constructor argument handling -/

/-- The attributes of the module-level `settings` object that
error_handling.py, batch_processor.py and websocket_client.py read. -/
structure AppSettings where
  STREAM_BATCH_SIZE : ℤ
  STREAM_MAX_BATCH_WAIT : ℚ
  MAX_RETRY_ATTEMPTS : ℤ
  RETRY_BACKOFF_FACTOR : ℚ
  RETRY_MAX_DELAY : ℚ
  DLQ_MAX_RETRIES : Nat
  DLQ_RETRY_DELAY : ℚ
  DLQ_ENABLED : Bool
  deriving DecidableEq

/-- Python `arg or default` for an optional integer argument: `None` and
`0` are falsy and select the default, every other value is kept. -/
def pyOrInt (arg : Option ℤ) (dflt : ℤ) : ℤ :=
  match arg with
  | none => dflt
  | some v => if v = 0 then dflt else v

/-- Python `arg or default` for an optional rational (float) argument. -/
def pyOrRat (arg : Option ℚ) (dflt : ℚ) : ℚ :=
  match arg with
  | none => dflt
  | some v => if v = 0 then dflt else v

/-- The attributes BatchProcessor.__init__ (batch_processor.py lines 36-64)
stores from its arguments.  The body performs no validation: every
argument is passed through `or`-defaulting and assigned. -/
structure BatchProcessorConfig where
  batch_size : ℤ
  max_wait_seconds : ℚ
  retry_attempts : ℤ
  retry_delay : ℚ
  deriving DecidableEq

/-- BatchProcessor.__init__'s attribute assignments (lines 53-57).  Note
the source defaults `retry_delay` from `settings.RETRY_BACKOFF_FACTOR`. -/
def batchProcessorInitCfg (st : AppSettings) (batch_size : Option ℤ)
    (max_wait_seconds : Option ℚ) (retry_attempts : Option ℤ)
    (retry_delay : Option ℚ) : BatchProcessorConfig :=
  { batch_size := pyOrInt batch_size st.STREAM_BATCH_SIZE
    max_wait_seconds := pyOrRat max_wait_seconds st.STREAM_MAX_BATCH_WAIT
    retry_attempts := pyOrInt retry_attempts st.MAX_RETRY_ATTEMPTS
    retry_delay := pyOrRat retry_delay st.RETRY_BACKOFF_FACTOR }

/-- BatchProcessor.__init__ viewed as fallible construction.  The source
body (lines 36-64) contains no validation and no raise statement, so the
embedding never produces an error value. -/
def batchProcessorInit (st : AppSettings) (batch_size : Option ℤ)
    (max_wait_seconds : Option ℚ) (retry_attempts : Option ℤ)
    (retry_delay : Option ℚ) : Except String BatchProcessorConfig :=
  Except.ok (batchProcessorInitCfg st batch_size max_wait_seconds
    retry_attempts retry_delay)

/-- The four numeric parameters of async_retry / sync_retry after their
`if param is None: param = settings.X` defaulting (error_handling.py lines
46-53 and 122-129).  `is None` keeps falsy values such as 0, unlike the
`or`-defaulting in BatchProcessor.__init__. -/
structure AsyncRetryArgs where
  max_retries : ℤ
  initial_delay : ℚ
  max_delay : ℚ
  backoff_factor : ℚ
  deriving DecidableEq

/-- Parameter resolution performed by async_retry / sync_retry before the
decorator is built.  No validation is performed. -/
def asyncRetryResolve (st : AppSettings) (max_retries : Option ℤ)
    (initial_delay max_delay backoff_factor : Option ℚ) : AsyncRetryArgs :=
  { max_retries := max_retries.getD st.MAX_RETRY_ATTEMPTS
    initial_delay := initial_delay.getD st.RETRY_BACKOFF_FACTOR
    max_delay := max_delay.getD st.RETRY_MAX_DELAY
    backoff_factor := backoff_factor.getD st.RETRY_BACKOFF_FACTOR }

/-- The retry parameters governing BatchProcessor._process_batch, fixed by
the decorator `@async_retry(max_retries=3)` at batch_processor.py line
107.  Only `max_retries` is supplied; the delay parameters come from
settings.  The instance attributes `retry_attempts` and `retry_delay` do
not reach this call site. -/
def processBatchRetryArgs (st : AppSettings) : AsyncRetryArgs :=
  asyncRetryResolve st (some 3) none none none

/-! ## BatchProcessor drain-loop semantics (batch_processor.py lines 66-181)

State machine of one BatchProcessor instance under the single asyncio
event loop.  `waiting` means the drain task is suspended inside
`self._not_empty.wait()` (line 97); `taskExited` means the coroutine of
`_process_batches` has returned; `crashed` means it terminated with an
uncaught exception.  `loggerDefined` distinguishes the two module loading
modes of batch_processor.py: the module binds the global `logger` only
inside its `if __name__ == "__main__"` block, so when the module is
imported the log calls at lines 157-172 and 179 raise NameError. -/

/-- Observable state of one BatchProcessor instance plus its background
drain task.  `processed` records, in order, the batches handed to
`_process_batch`; `failed` records those whose processing exhausted
retries (the processor callback raised). -/
structure BPState (T : Type) where
  queue : List T
  shutdown : Bool
  waiting : Bool
  taskExited : Bool
  crashed : Bool
  processed : List (List T)
  failed : List (List T)
  deriving DecidableEq

/-- External events driving a BatchProcessor: an `add_item` call, a
`stop()` call, and the passage of time (`tick`).  Time passage is a
separate event to make its effect, or absence of effect, provable: the
drain loop's only suspension is `self._not_empty.wait()` at line 97,
which has no timeout, so elapsed time alone never resumes it. -/
inductive BPEvent (T : Type) where
  | add : T → BPEvent T
  | stop : BPEvent T
  | tick : BPEvent T
  deriving DecidableEq

/-- Run the drain task until it suspends or exits, starting inside the
`while not self._queue and not self._shutdown` re-check of `_get_batch`
(lines 96-97), which is also where a fresh task begins.  `fuel` bounds
the iterations; every iteration that continues removes at least one
queued item, so `queue.length + 1` fuel always suffices when the batch
size is positive.  After a batch is processed, the loop logs the result
(lines 156-172); with the module imported, `logger` is unbound and the
NameError raised there is re-raised by the equally unbound `logger.error`
in the `except` handler (line 179), killing the task. -/
def drainGo {T : Type} (batchSize : Nat) (procOk : List T → Bool)
    (loggerDefined : Bool) : Nat → BPState T → BPState T
  | 0, s => s
  | fuel + 1, s =>
    if s.queue.isEmpty && !s.shutdown then
      { s with waiting := true }
    else if s.shutdown && s.queue.isEmpty then
      { s with taskExited := true }
    else
      let n := min s.queue.length batchSize
      let batch := s.queue.take n
      let s1 : BPState T :=
        { s with
          queue := s.queue.drop n
          processed := s.processed ++ [batch]
          failed := if procOk batch then s.failed else s.failed ++ [batch] }
      if !loggerDefined then { s1 with crashed := true, taskExited := true }
      else if s1.shutdown then { s1 with taskExited := true }
      else drainGo batchSize procOk loggerDefined fuel s1

/-- Resume the drain task (after a notification) and run it to its next
suspension point. -/
def drainResume {T : Type} (batchSize : Nat) (procOk : List T → Bool)
    (loggerDefined : Bool) (s : BPState T) : BPState T :=
  drainGo batchSize procOk loggerDefined (s.queue.length + 1) s

/-- Effect of one external event.  `add_item` (lines 81-90) appends under
the lock and notifies only when the queue has reached `batch_size`;
`stop()` (lines 72-79) sets the shutdown flag, notifies, and awaits the
task; a notification resumes the drain task only if it is actually
waiting on the condition. -/
def bpStep {T : Type} (batchSize : Nat) (procOk : List T → Bool)
    (loggerDefined : Bool) (s : BPState T) : BPEvent T → BPState T
  | BPEvent.add t =>
    let s1 : BPState T := { s with queue := s.queue ++ [t] }
    if batchSize ≤ s1.queue.length ∧ s1.waiting = true then
      drainResume batchSize procOk loggerDefined { s1 with waiting := false }
    else s1
  | BPEvent.stop =>
    let s1 : BPState T := { s with shutdown := true }
    if s1.waiting = true then
      drainResume batchSize procOk loggerDefined { s1 with waiting := false }
    else s1
  | BPEvent.tick => s

/-- State right after `__init__`: empty queue, no shutdown, task not yet
started. -/
def bpInit {T : Type} : BPState T :=
  ⟨[], false, false, false, false, [], []⟩

/-- State after `start()`: the spawned `_process_batches` task runs until
its first suspension (the condition wait on the empty queue). -/
def bpStart {T : Type} (batchSize : Nat) (procOk : List T → Bool)
    (loggerDefined : Bool) : BPState T :=
  drainResume batchSize procOk loggerDefined bpInit

/-- Run a started BatchProcessor over a sequence of external events. -/
def bpRun {T : Type} (batchSize : Nat) (procOk : List T → Bool)
    (loggerDefined : Bool) (events : List (BPEvent T)) : BPState T :=
  events.foldl (bpStep batchSize procOk loggerDefined)
    (bpStart batchSize procOk loggerDefined)

/-! ## DeadLetterQueue (error_handling.py lines 179-305) -/

/-- One entry dict of the dead letter queue (lines 220-230). -/
structure DLQEntry (α : Type) where
  item : α
  error : String
  error_type : String
  metadata : List (String × String)
  context : List (String × String)
  attempts : Nat
  next_retry : ℚ
  created_at : ℚ
  last_updated : ℚ
  deriving DecidableEq

/-- State of one DeadLetterQueue instance: its two configuration
attributes and the entry list. -/
structure DLQState (α : Type) where
  max_retries : Nat
  retry_delay : ℚ
  entries : List (DLQEntry α)
  deriving DecidableEq

/-- `put` (lines 198-242): if the DLQ is enabled, append a fresh entry
with `attempts = 0` and `next_retry = now + retry_delay`; otherwise log
and discard. -/
def dlqPut {α : Type} (st : AppSettings) (s : DLQState α) (item : α)
    (error error_type : String) (metadata context : List (String × String))
    (now : ℚ) : DLQState α :=
  if st.DLQ_ENABLED then
    { s with entries := s.entries ++
        [{ item := item, error := error, error_type := error_type
           metadata := metadata, context := context, attempts := 0
           next_retry := now + s.retry_delay, created_at := now
           last_updated := now }] }
  else s

/-- `get_retry_items` (lines 244-254): the entries with
`attempts < max_retries and next_retry <= now`.  Read-only. -/
def dlqGetRetryItems {α : Type} (s : DLQState α) (now : ℚ) :
    List (DLQEntry α) :=
  s.entries.filter fun e =>
    decide (e.attempts < s.max_retries) && decide (e.next_retry ≤ now)

/-- Replace the first element equal to `x` by `f x`, leaving the rest of
the list unchanged.  This is the effect of Python's in-place mutation of
the matched dict inside the list. -/
def updateFirst {β : Type} [DecidableEq β] (l : List β) (x : β)
    (f : β → β) : List β :=
  match l with
  | [] => []
  | y :: ys => if y = x then f y :: ys else y :: updateFirst ys x f

/-- `mark_processed` (lines 256-287): if the entry is present, a success
removes it (`list.remove` drops the first equal element); a failure
mutates it in place, incrementing `attempts`, stamping `last_updated`,
and recomputing
`next_retry = now + min(retry_delay * 2 ** (attempts - 1) * jitter, settings.RETRY_MAX_DELAY)`
where `attempts` has already been incremented and `jitter` is the
`random.uniform(0.5, 1.5)` draw. -/
def dlqMarkProcessed {α : Type} [DecidableEq α] (st : AppSettings)
    (s : DLQState α) (e : DLQEntry α) (success : Bool) (now jitter : ℚ) :
    DLQState α :=
  if e ∈ s.entries then
    if success then { s with entries := s.entries.erase e }
    else
      { s with entries := updateFirst s.entries e fun x =>
          { x with
            attempts := x.attempts + 1
            last_updated := now
            next_retry := now + min
              (s.retry_delay * 2 ^ (x.attempts + 1 - 1) * jitter)
              st.RETRY_MAX_DELAY } }
  else s

/-- The mutating DLQ operations, each carrying the wall-clock time at
which it runs (and, for a failure mark, the jitter draw). -/
inductive DLQOp (α : Type) where
  | put : α → String → String → List (String × String) →
      List (String × String) → ℚ → DLQOp α
  | mark : DLQEntry α → Bool → ℚ → ℚ → DLQOp α

/-- Whether an operation is a successful `mark_processed`, the only
operation that removes entries. -/
def DLQOp.isMarkSuccess {α : Type} : DLQOp α → Bool
  | DLQOp.mark _ true _ _ => true
  | _ => false

/-- Apply one DLQ operation. -/
def dlqApply {α : Type} [DecidableEq α] (st : AppSettings)
    (s : DLQState α) : DLQOp α → DLQState α
  | DLQOp.put i er et m c now => dlqPut st s i er et m c now
  | DLQOp.mark e success now j => dlqMarkProcessed st s e success now j

/-- Run a sequence of DLQ operations. -/
def dlqRun {α : Type} [DecidableEq α] (st : AppSettings) (s : DLQState α)
    (ops : List (DLQOp α)) : DLQState α :=
  ops.foldl (dlqApply st) s

/-! ## WebSocketClient reconnect backoff (websocket_client.py lines 197-215) -/

/-- The capped exponential base delay of `_handle_reconnect` (lines
207-210): `min(reconnect_interval * 2 ** (attempts - 1), 300)` with a
hard-coded 300-second cap. -/
def reconnectBaseDelay (interval : ℚ) (attempts : Nat) : ℚ :=
  min (interval * 2 ^ (attempts - 1)) 300

/-- The full reconnect sleep (lines 207-212): the base delay plus an
additive jitter `delay * 0.1 * u`, capped again at 300, where
`u = 0.5 + (hash(str(time.time())) % 100) / 100.0` lies in the interval
from 1/2 to 149/100. -/
def reconnectDelay (interval : ℚ) (attempts : Nat) (u : ℚ) : ℚ :=
  let d := reconnectBaseDelay interval attempts
  min (d + d * (1 / 10) * u) 300

/-- The give-up test of `_handle_reconnect` (line 201): the Python chained
comparison `self.reconnect_attempts > self.max_reconnect_attempts > 0`. -/
def reconnectGivesUp (max_reconnect_attempts attempts : ℤ) : Bool :=
  decide (attempts > max_reconnect_attempts) &&
    decide (max_reconnect_attempts > 0)

/-- A concrete settings valuation used by the closed witness and
counterexample theorems. -/
def sampleSettings : AppSettings :=
  { STREAM_BATCH_SIZE := 100
    STREAM_MAX_BATCH_WAIT := 1
    MAX_RETRY_ATTEMPTS := 3
    RETRY_BACKOFF_FACTOR := 2
    RETRY_MAX_DELAY := 300
    DLQ_MAX_RETRIES := 3
    DLQ_RETRY_DELAY := 60
    DLQ_ENABLED := true }

/-- A concrete dead-letter entry whose attempts already reached the cap
of the sample DLQ below; used by closed witness theorems. -/
def dlqSampleEntry : DLQEntry Nat :=
  ⟨7, "boom", "ValueError", [], [], 2, 5, 0, 0⟩

/-- A concrete DLQ state with max_retries 2 holding the exhausted sample
entry. -/
def dlqSampleState : DLQState Nat :=
  { max_retries := 2, retry_delay := 1, entries := [dlqSampleEntry] }

/-- A concrete operation sequence with no successful mark_processed. -/
def dlqSampleOps : List (DLQOp Nat) :=
  [DLQOp.put 8 "x" "E" [] [] 3, DLQOp.mark dlqSampleEntry false 4 1]

/-- A concrete fresh dead-letter entry with no attempts yet. -/
def dlqFreshEntry : DLQEntry Nat :=
  ⟨9, "oops", "KeyError", [], [], 0, 5, 0, 0⟩

/-- A concrete DLQ state holding the fresh sample entry. -/
def dlqFreshState : DLQState Nat :=
  { max_retries := 2, retry_delay := 1, entries := [dlqFreshEntry] }

/-! ## Lemmas about the retry primitive -/

/-- Full trace of the retry loop on a workload that raises an accepted
exception on every attempt: with `fuel` loop iterations remaining after
the current one and `attempt + fuel = maxRetries`, the loop performs
`fuel + 1` further invocations, sleeps the jittered capped backoff
between consecutive failures, and terminates with the last exception
wrapped. -/
theorem retryAux_alwaysFail {E A : Type} (errf : Nat → E) (accept : E → Bool)
    (hacc : ∀ n, accept (errf n) = true)
    (maxRetries : Nat) (maxDelay factor : ℚ) (jitter : Nat → ℚ) :
    ∀ fuel attempt delay, attempt + fuel = maxRetries →
    retryAux accept (fun n => (Except.error (errf n) : Except E A)) maxRetries
        maxDelay factor jitter (fuel + 1) attempt delay =
      ⟨RetryOutcome.maxRetriesExceeded (errf maxRetries), fuel + 1,
        (List.range fuel).map fun i =>
          min (delay * factor ^ i * jitter (attempt + i)) maxDelay⟩ := by
  intro fuel
  induction fuel with
  | zero =>
    intro attempt delay h
    have h0 : attempt = maxRetries := by omega
    subst h0
    simp [retryAux, hacc]
  | succ n ih =>
    intro attempt delay h
    have hne : ¬ attempt = maxRetries := by omega
    rw [retryAux]
    simp only [hacc, if_true, hne, if_false]
    rw [ih (attempt + 1) (delay * factor) (by omega)]
    refine congrArg (RetryTrace.mk _ _) ?_
    rw [List.range_succ_eq_map, List.map_cons, List.map_map]
    refine congrArg₂ (· :: ·) (by norm_num) ?_
    refine List.map_congr_left ?_
    intro i _
    simp only [Function.comp_apply, Nat.succ_eq_add_one, pow_succ]
    have harg : attempt + (i + 1) = attempt + 1 + i := by omega
    rw [harg]
    ring_nf

/-- C2 (amended): for async_retry / sync_retry wrapping a workload that
raises an exception from the accepted set on every call, the workload is
invoked exactly max_retries + 1 times and then MaxRetriesExceededError
carrying the last exception as cause is raised to the caller; the
computed sleeps are min of the jittered backoff and max_delay, hence each
sleep is at most max_delay, and the pre-jitter delay sequence
initial_delay * backoff_factor ^ i is non-decreasing.  (The jittered
sleeps themselves need not be non-decreasing; see the counterexample.) -/
theorem retry_exhaustion_behavior {E A : Type} (errf : Nat → E)
    (accept : E → Bool) (hacc : ∀ n, accept (errf n) = true)
    (maxRetries : Nat) (initialDelay maxDelay factor : ℚ) (jitter : Nat → ℚ)
    (hfac : 1 ≤ factor) (hinit : 0 ≤ initialDelay) :
    (retryRun accept (fun n => (Except.error (errf n) : Except E A))
      maxRetries initialDelay maxDelay factor jitter).invocations =
        maxRetries + 1 ∧
    (retryRun accept (fun n => (Except.error (errf n) : Except E A))
      maxRetries initialDelay maxDelay factor jitter).outcome =
        RetryOutcome.maxRetriesExceeded (errf maxRetries) ∧
    (retryRun accept (fun n => (Except.error (errf n) : Except E A))
      maxRetries initialDelay maxDelay factor jitter).sleeps =
      ((List.range maxRetries).map fun i =>
        min (initialDelay * factor ^ i * jitter i) maxDelay) ∧
    ((retryRun accept (fun n => (Except.error (errf n) : Except E A))
      maxRetries initialDelay maxDelay factor jitter).sleeps.all
        fun s => decide (s ≤ maxDelay)) = true ∧
    List.Chain' (· ≤ ·)
      ((List.range (maxRetries + 1)).map fun i => initialDelay * factor ^ i) := by
  have ht : retryRun accept
      (fun n => (Except.error (errf n) : Except E A))
      maxRetries initialDelay maxDelay factor jitter =
      ⟨RetryOutcome.maxRetriesExceeded (errf maxRetries),
      maxRetries + 1, (List.range maxRetries).map fun i =>
        min (initialDelay * factor ^ i * jitter (0 + i)) maxDelay⟩ :=
    retryAux_alwaysFail errf accept hacc maxRetries maxDelay factor jitter
      maxRetries 0 initialDelay (by omega)
  have hz : ∀ i : Nat, 0 + i = i := fun i => by omega
  refine ⟨by rw [ht], by rw [ht], ?_, ?_, ?_⟩
  · rw [ht]
    simp only [hz]
  · rw [ht]
    simp only [List.all_eq_true, List.mem_map, List.mem_range]
    rintro s ⟨i, _, rfl⟩
    simp [min_le_right]
  · rw [List.chain'_map]
    rw [List.chain'_range_succ]
    intro m _
    have hpow : factor ^ m ≤ factor ^ (m + 1) :=
      pow_le_pow_right₀ hfac (by omega)
    exact mul_le_mul_of_nonneg_left hpow hinit

/-- Witness for C2: concrete run with max_retries 2, initial_delay 1,
max_delay 100, backoff_factor 2 and unit jitter draws. -/
theorem retry_exhaustion_behavior_wit :
    (1 : ℚ) ≤ 2 ∧ (0 : ℚ) ≤ 1 ∧
    ((retryRun (fun _ : Nat => true)
        (fun n => (Except.error n : Except Nat Unit)) 2 1 100 2
        (fun _ => 1)).invocations = 2 + 1 ∧
      (retryRun (fun _ : Nat => true)
        (fun n => (Except.error n : Except Nat Unit)) 2 1 100 2
        (fun _ => 1)).outcome = RetryOutcome.maxRetriesExceeded 2 ∧
      (retryRun (fun _ : Nat => true)
        (fun n => (Except.error n : Except Nat Unit)) 2 1 100 2
        (fun _ => 1)).sleeps = ((List.range 2).map fun i =>
          min ((1 : ℚ) * 2 ^ i * 1) 100) ∧
      ((retryRun (fun _ : Nat => true)
        (fun n => (Except.error n : Except Nat Unit)) 2 1 100 2
        (fun _ => 1)).sleeps.all fun s => decide (s ≤ (100 : ℚ))) = true ∧
      List.Chain' (· ≤ ·)
        ((List.range (2 + 1)).map fun i => (1 : ℚ) * 2 ^ i)) :=
  ⟨by norm_num, by norm_num,
    retry_exhaustion_behavior (fun n => n) (fun _ => true) (fun _ => rfl)
      2 1 100 2 (fun _ => 1) (by norm_num) (by norm_num)⟩

/-- C2 counterexample: with backoff_factor 2 and jitter draws 3/2 then
1/2, both inside the uniform(0.5, 1.5) range, the computed sleeps of an
always-failing workload are 3/2 then 1: strictly decreasing.  The
claim's requirement that the computed sleep delays be non-decreasing is
therefore false as stated. -/
theorem retry_sleeps_can_decrease :
    (retryRun (fun _ : Nat => true)
        (fun n => (Except.error n : Except Nat Unit)) 2 1 100 2
        (fun n => if n = 0 then 3 / 2 else 1 / 2)).sleeps = [3 / 2, 1] ∧
    ¬ List.Chain' (· ≤ ·)
      (retryRun (fun _ : Nat => true)
        (fun n => (Except.error n : Except Nat Unit)) 2 1 100 2
        (fun n => if n = 0 then 3 / 2 else 1 / 2)).sleeps ∧
    (1 : ℚ) / 2 ≤ 3 / 2 ∧ (3 : ℚ) / 2 ≤ 3 / 2 ∧ (1 : ℚ) < 2 := by
  have hs : (retryRun (fun _ : Nat => true)
      (fun n => (Except.error n : Except Nat Unit)) 2 1 100 2
      (fun n => if n = 0 then 3 / 2 else 1 / 2)).sleeps = [3 / 2, 1] := by
    with_unfolding_all decide
  refine ⟨hs, ?_, by norm_num, by norm_num, by norm_num⟩
  rw [hs]
  intro hcontra
  rcases List.chain'_cons.mp hcontra with ⟨hle, -⟩
  norm_num at hle

/-! ## Lemmas about the BatchProcessor drain-loop model -/

/-- After `start()` the drain task immediately suspends on the condition
wait, since the queue is empty and shutdown is not requested. -/
theorem bpStart_eq {T : Type} (b : Nat) (p : List T → Bool) (ld : Bool) :
    bpStart b p ld = (⟨[], false, true, false, false, [], []⟩ : BPState T) := by
  simp [bpStart, bpInit, drainResume, drainGo]

/-- Passage of time alone never changes the state: the drain task's only
suspension is a condition wait with no timeout. -/
theorem bp_ticks_fixed {T : Type} (b : Nat) (p : List T → Bool) (ld : Bool)
    (s : BPState T) (k : Nat) :
    (List.replicate k (BPEvent.tick : BPEvent T)).foldl (bpStep b p ld) s
      = s := by
  induction k with
  | zero => rfl
  | succ n ih => simpa [List.replicate_succ, bpStep] using ih

/-- While the total queued count stays below `batch_size`, `add_item`
never notifies, so the waiting drain task stays suspended and the items
accumulate in FIFO order. -/
theorem bp_adds_below {T : Type} (b : Nat) (p : List T → Bool) (ld : Bool) :
    ∀ (items q : List T) (ps fs : List (List T)),
    q.length + items.length < b →
    (items.map BPEvent.add).foldl (bpStep b p ld)
        ⟨q, false, true, false, false, ps, fs⟩ =
      ⟨q ++ items, false, true, false, false, ps, fs⟩ := by
  intro items
  induction items with
  | nil =>
    intro q ps fs _
    simp
  | cons t rest ih =>
    intro q ps fs h
    simp only [List.length_cons] at h
    simp only [List.map_cons, List.foldl_cons]
    have hstep : bpStep b p ld ⟨q, false, true, false, false, ps, fs⟩
        (BPEvent.add t) = ⟨q ++ [t], false, true, false, false, ps, fs⟩ := by
      simp only [bpStep]
      split
      · rename_i hcon
        exfalso
        simp only [List.length_append, List.length_cons,
          List.length_nil] at hcon
        omega
      · rfl
    rw [hstep, ih (q ++ [t]) ps fs
      (by simp only [List.length_append, List.length_cons,
        List.length_nil]; omega)]
    simp

/-- Once the drain task is no longer waiting on the condition (it has
exited, or crashed), `add_item` only appends: its notification wakes
nobody. -/
theorem bp_adds_nowait {T : Type} (b : Nat) (p : List T → Bool) (ld : Bool) :
    ∀ (items q : List T) (sd te cr : Bool) (ps fs : List (List T)),
    (items.map BPEvent.add).foldl (bpStep b p ld)
        ⟨q, sd, false, te, cr, ps, fs⟩ =
      ⟨q ++ items, sd, false, te, cr, ps, fs⟩ := by
  intro items
  induction items with
  | nil =>
    intro q sd te cr ps fs
    simp
  | cons t rest ih =>
    intro q sd te cr ps fs
    simp only [List.map_cons, List.foldl_cons]
    have hstep : bpStep b p ld ⟨q, sd, false, te, cr, ps, fs⟩
        (BPEvent.add t) = ⟨q ++ [t], sd, false, te, cr, ps, fs⟩ := by
      simp [bpStep]
    rw [hstep, ih (q ++ [t]) sd te cr ps fs]
    simp

/-- Resuming the woken drain task on a full queue of exactly `batch_size`
items (the `add_item` notification case) with the logger bound: the whole
queue is extracted as one batch, processed, and the task waits again. -/
theorem drainResume_full {T : Type} (b : Nat) (hb : 0 < b)
    (p : List T → Bool) (q : List T) (hq : q.length = b)
    (te cr : Bool) (ps fs : List (List T)) :
    drainResume b p true ⟨q, false, false, te, cr, ps, fs⟩ =
      ⟨[], false, true, te, cr, ps ++ [q],
        if p q then fs else fs ++ [q]⟩ := by
  obtain ⟨x, rest, rfl⟩ : ∃ x rest, q = x :: rest := by
    cases q with
    | nil => simp at hq; omega
    | cons x rest => exact ⟨x, rest, rfl⟩
  simp only [List.length_cons] at hq
  have hmin : (rest.length + 1) ⊓ b = rest.length + 1 := by omega
  have hle : rest.length + 1 ≤ b := by omega
  rw [drainResume]
  simp [drainGo, hmin, hle]

/-- Resuming the woken drain task after `stop()` with a non-empty queue
of at most `batch_size` pending items and the logger bound: the pending
items are extracted as one final batch, processed, and then the
`while not self._shutdown` loop condition fails and the task exits. -/
theorem drainResume_stop {T : Type} (b : Nat) (p : List T → Bool)
    (q : List T) (h0 : 0 < q.length) (hle : q.length ≤ b)
    (te cr : Bool) (ps fs : List (List T)) :
    drainResume b p true ⟨q, true, false, te, cr, ps, fs⟩ =
      ⟨[], true, false, true, cr, ps ++ [q],
        if p q then fs else fs ++ [q]⟩ := by
  obtain ⟨x, rest, rfl⟩ : ∃ x rest, q = x :: rest := by
    cases q with
    | nil => simp at h0
    | cons x rest => exact ⟨x, rest, rfl⟩
  simp only [List.length_cons] at hle
  have hmin : (rest.length + 1) ⊓ b = rest.length + 1 := by omega
  rw [drainResume]
  simp [drainGo, hmin]

/-- Invariant of a started BatchProcessor driven by `add_item` calls only
(logger bound): the drain task is suspended waiting, all completed
batches hold exactly `batch_size` items, the pending remainder is below
`batch_size`, and batches plus remainder are the added items in FIFO
order. -/
theorem bp_fifo_aux {T : Type} (b : Nat) (hb : 0 < b) (p : List T → Bool)
    (items : List T) :
    ∃ ps fs q, bpRun b p true (items.map BPEvent.add) =
        ⟨q, false, true, false, false, ps, fs⟩ ∧
      ps.flatten ++ q = items ∧ (∀ l ∈ ps, l.length = b) ∧ q.length < b := by
  induction items using List.reverseRecOn with
  | nil =>
    refine ⟨[], [], [], ?_, by simp, by simp, hb⟩
    simp [bpRun, bpStart_eq]
  | append_singleton l a ih =>
    obtain ⟨ps, fs, q, hrun, hflat, hlen, hqlt⟩ := ih
    have hsplit : bpRun b p true ((l ++ [a]).map BPEvent.add) =
        bpStep b p true (bpRun b p true (l.map BPEvent.add))
          (BPEvent.add a) := by
      simp [bpRun, List.foldl_append]
    rw [hsplit, hrun]
    by_cases hfull : q.length + 1 = b
    · have hstep : bpStep b p true ⟨q, false, true, false, false, ps, fs⟩
          (BPEvent.add a) =
          drainResume b p true
            ⟨q ++ [a], false, false, false, false, ps, fs⟩ := by
        simp only [bpStep]
        rw [if_pos]
        exact ⟨by simp only [List.length_append, List.length_cons,
          List.length_nil]; omega, trivial⟩
      rw [hstep, drainResume_full b hb p (q ++ [a])
        (by simp only [List.length_append, List.length_cons,
          List.length_nil]; omega) false false ps fs]
      refine ⟨ps ++ [q ++ [a]], _, [], rfl, ?_, ?_, hb⟩
      · simp only [List.flatten_append, List.flatten_cons, List.flatten_nil,
          List.append_nil, ← List.append_assoc, hflat]
      · intro l2 hl2
        rcases List.mem_append.mp hl2 with h1 | h2
        · exact hlen l2 h1
        · simp only [List.mem_singleton] at h2
          subst h2
          simp only [List.length_append, List.length_cons, List.length_nil]
          omega
    · have hstep : bpStep b p true ⟨q, false, true, false, false, ps, fs⟩
          (BPEvent.add a) = ⟨q ++ [a], false, true, false, false, ps, fs⟩ := by
        simp only [bpStep]
        split
        · rename_i hcon
          exfalso
          simp only [List.length_append, List.length_cons,
            List.length_nil] at hcon
          omega
        · rfl
      rw [hstep]
      refine ⟨ps, fs, q ++ [a], rfl, ?_, hlen, ?_⟩
      · rw [← List.append_assoc, hflat]
      · simp only [List.length_append, List.length_cons, List.length_nil]
        omega

/-- C1 (the claimed behaviour is absent from the code): with M pending
items, 0 < M < batch_size, and no further add_item calls, the drain loop
is suspended in a condition wait that has no timeout, and `add_item`
only notifies once the queue reaches batch_size; `max_wait_seconds` is
stored by the constructor but never read by the loop.  However much time
passes, the processor is never invoked: the partial batch is never
flushed, contradicting the claimed flush within max_wait_seconds. -/
theorem bp_partial_batch_never_flushed {T : Type} (b : Nat)
    (p : List T → Bool) (ld : Bool) (items : List T)
    (h0 : 0 < items.length) (hlt : items.length < b) (k : Nat) :
    (bpRun b p ld (items.map BPEvent.add ++
      List.replicate k BPEvent.tick)).processed = [] ∧
    (bpRun b p ld (items.map BPEvent.add ++
      List.replicate k BPEvent.tick)).queue = items ∧
    (bpRun b p ld (items.map BPEvent.add ++
      List.replicate k BPEvent.tick)).waiting = true ∧
    (bpRun b p ld (items.map BPEvent.add ++
      List.replicate k BPEvent.tick)).taskExited = false ∧
    (bpRun b p ld (items.map BPEvent.add ++
      List.replicate k BPEvent.tick)).crashed = false := by
  have hs : bpRun b p ld
      (items.map BPEvent.add ++ List.replicate k BPEvent.tick) =
      ⟨items, false, true, false, false, [], []⟩ := by
    rw [bpRun, List.foldl_append, bpStart_eq,
      bp_adds_below b p ld items [] [] [] (by simpa using hlt),
      bp_ticks_fixed]
    simp
  rw [hs]
  exact ⟨rfl, rfl, rfl, rfl, rfl⟩

/-- Witness for C1 at batch_size 3 with one pending item and five clock
ticks. -/
theorem bp_partial_batch_never_flushed_wit :
    0 < ([7] : List Nat).length ∧ ([7] : List Nat).length < 3 ∧
    ((bpRun 3 (fun _ => true) true (([7] : List Nat).map BPEvent.add ++
        List.replicate 5 BPEvent.tick)).processed = [] ∧
      (bpRun 3 (fun _ => true) true (([7] : List Nat).map BPEvent.add ++
        List.replicate 5 BPEvent.tick)).queue = [7] ∧
      (bpRun 3 (fun _ => true) true (([7] : List Nat).map BPEvent.add ++
        List.replicate 5 BPEvent.tick)).waiting = true ∧
      (bpRun 3 (fun _ => true) true (([7] : List Nat).map BPEvent.add ++
        List.replicate 5 BPEvent.tick)).taskExited = false ∧
      (bpRun 3 (fun _ => true) true (([7] : List Nat).map BPEvent.add ++
        List.replicate 5 BPEvent.tick)).crashed = false) :=
  ⟨by decide, by decide,
    bp_partial_batch_never_flushed 3 (fun _ => true) true [7]
      (by decide) (by decide) 5⟩

/-- C3: with K pending items, 0 < K < batch_size, and the logger bound,
calling stop() wakes the drain loop, which extracts exactly one final
batch holding those K items in order, processes it, and exits; stop()
returns only after the task has exited, and add_item calls arriving
after stop() only accumulate in the queue, never producing another
processor invocation. -/
theorem bp_stop_drains_pending {T : Type} (b : Nat) (p : List T → Bool)
    (items more : List T) (h0 : 0 < items.length)
    (hlt : items.length < b) :
    (bpRun b p true (items.map BPEvent.add ++ [BPEvent.stop] ++
      more.map BPEvent.add)).processed = [items] ∧
    (bpRun b p true (items.map BPEvent.add ++ [BPEvent.stop] ++
      more.map BPEvent.add)).taskExited = true ∧
    (bpRun b p true (items.map BPEvent.add ++ [BPEvent.stop] ++
      more.map BPEvent.add)).shutdown = true ∧
    (bpRun b p true (items.map BPEvent.add ++ [BPEvent.stop] ++
      more.map BPEvent.add)).waiting = false ∧
    (bpRun b p true (items.map BPEvent.add ++ [BPEvent.stop] ++
      more.map BPEvent.add)).queue = more ∧
    (bpRun b p true (items.map BPEvent.add ++ [BPEvent.stop] ++
      more.map BPEvent.add)).crashed = false := by
  have h1 : bpStep b p true ⟨items, false, true, false, false, [], []⟩
      BPEvent.stop =
      drainResume b p true ⟨items, true, false, false, false, [], []⟩ := rfl
  have hs : bpRun b p true (items.map BPEvent.add ++ [BPEvent.stop] ++
      more.map BPEvent.add) =
      ⟨[] ++ more, true, false, true, false, [] ++ [items],
        if p items then [] else [] ++ [items]⟩ := by
    rw [bpRun, List.foldl_append, List.foldl_append, bpStart_eq,
      bp_adds_below b p true items [] [] [] (by simpa using hlt),
      List.nil_append, List.foldl_cons, List.foldl_nil, h1,
      drainResume_stop b p items h0 (le_of_lt hlt) false false [] [],
      bp_adds_nowait b p true more [] true true false ([] ++ [items])
        (if p items then [] else [] ++ [items])]
  rw [hs]
  exact ⟨by simp, rfl, rfl, rfl, by simp, rfl⟩

/-- Witness for C3: batch_size 3, two pending items drained by stop(),
one item added afterwards staying unprocessed. -/
theorem bp_stop_drains_pending_wit :
    0 < ([1, 2] : List Nat).length ∧ ([1, 2] : List Nat).length < 3 ∧
    ((bpRun 3 (fun _ => true) true (([1, 2] : List Nat).map BPEvent.add ++
        [BPEvent.stop] ++ ([9] : List Nat).map BPEvent.add)).processed =
          [[1, 2]] ∧
      (bpRun 3 (fun _ => true) true (([1, 2] : List Nat).map BPEvent.add ++
        [BPEvent.stop] ++ ([9] : List Nat).map BPEvent.add)).taskExited =
          true ∧
      (bpRun 3 (fun _ => true) true (([1, 2] : List Nat).map BPEvent.add ++
        [BPEvent.stop] ++ ([9] : List Nat).map BPEvent.add)).shutdown =
          true ∧
      (bpRun 3 (fun _ => true) true (([1, 2] : List Nat).map BPEvent.add ++
        [BPEvent.stop] ++ ([9] : List Nat).map BPEvent.add)).waiting =
          false ∧
      (bpRun 3 (fun _ => true) true (([1, 2] : List Nat).map BPEvent.add ++
        [BPEvent.stop] ++ ([9] : List Nat).map BPEvent.add)).queue = [9] ∧
      (bpRun 3 (fun _ => true) true (([1, 2] : List Nat).map BPEvent.add ++
        [BPEvent.stop] ++ ([9] : List Nat).map BPEvent.add)).crashed =
          false) :=
  ⟨by decide, by decide,
    bp_stop_drains_pending 3 (fun _ => true) [1, 2] [9]
      (by decide) (by decide)⟩

/-- Intended-mode drain behaviour (module-global logger bound, as it is
only when batch_processor.py runs as a script): items are drained in
FIFO enqueue order, the processed batches concatenated with the
remaining queue reproduce the added items exactly, every completed batch
has exactly batch_size items, and fewer than batch_size items remain
queued with the drain task back in its condition wait.  This documents
that `_get_batch`'s extraction logic itself realises the claimed FIFO
batching, so the deviation proved for the imported-module semantics
below is due solely to the unbound logger. -/
theorem bp_fifo_batching {T : Type} (b : Nat) (hb : 0 < b)
    (p : List T → Bool) (items : List T) :
    (bpRun b p true (items.map BPEvent.add)).processed.flatten ++
      (bpRun b p true (items.map BPEvent.add)).queue = items ∧
    ((bpRun b p true (items.map BPEvent.add)).processed.all
      fun l => l.length == b) = true ∧
    (bpRun b p true (items.map BPEvent.add)).queue.length < b ∧
    (bpRun b p true (items.map BPEvent.add)).waiting = true ∧
    (bpRun b p true (items.map BPEvent.add)).taskExited = false ∧
    (bpRun b p true (items.map BPEvent.add)).crashed = false := by
  obtain ⟨ps, fs, q, hrun, hflat, hlen, hqlt⟩ := bp_fifo_aux b hb p items
  rw [hrun]
  refine ⟨hflat, ?_, hqlt, rfl, rfl, rfl⟩
  simp only [List.all_eq_true, beq_iff_eq]
  intro l hl
  exact hlen l hl

/-- C4 (the code violates the claim in the deployed, imported-module
semantics): the repository only uses BatchProcessor by importing
batch_processor.py, where the module-global `logger` is unbound, so the
log call after the first completed batch raises NameError and the drain
task dies (the same slip as C7).  With batch_size 2 and four added
items, the first batch is extracted FIFO as exactly the two oldest items
and processed, but the second full batch is never delivered: processed
stays at one batch while two items — a whole batch_size worth — remain
queued, refuting the claim that the processor receives batches of
exactly batch_size until fewer than batch_size items remain.  The FIFO
extraction logic itself is correct (see the intended-mode theorem
above), so the claim states the evident intent and the unbound logger is
the code's slip. -/
theorem bp_fifo_broken_when_imported :
    (bpRun 2 (fun _ => true) false
      (([0, 1, 2, 3] : List Nat).map BPEvent.add)).processed = [[0, 1]] ∧
    (bpRun 2 (fun _ => true) false
      (([0, 1, 2, 3] : List Nat).map BPEvent.add)).queue = [2, 3] ∧
    (bpRun 2 (fun _ => true) false
      (([0, 1, 2, 3] : List Nat).map BPEvent.add)).crashed = true ∧
    (bpRun 2 (fun _ => true) false
      (([0, 1, 2, 3] : List Nat).map BPEvent.add)).taskExited = true := by
  decide

/-- C7 (the code crashes where the claim requires it to continue): when
batch_processor.py is imported, its module-global `logger` is unbound
(it is only assigned inside the `if __name__ == "__main__"` block), so
after the first batch is handed to `_process_batch` the log call in
`_process_batches` raises NameError, and the `logger.error` call in the
`except` handler raises NameError again, killing the background task.
With batch_size 1, an always-raising processor and two added items, the
first item is processed once but the task crashes and the second item is
never drained, contradicting the claim that the loop logs and continues
and the task remains running. -/
theorem bp_logger_crash_on_first_batch :
    (bpRun 1 (fun _ => false) false
      (([0, 1] : List Nat).map BPEvent.add)).crashed = true ∧
    (bpRun 1 (fun _ => false) false
      (([0, 1] : List Nat).map BPEvent.add)).taskExited = true ∧
    (bpRun 1 (fun _ => false) false
      (([0, 1] : List Nat).map BPEvent.add)).processed = [[0]] ∧
    (bpRun 1 (fun _ => false) false
      (([0, 1] : List Nat).map BPEvent.add)).failed = [[0]] ∧
    (bpRun 1 (fun _ => false) false
      (([0, 1] : List Nat).map BPEvent.add)).queue = [1] ∧
    (bpRun 1 (fun _ => false) false
      (([0, 1] : List Nat).map BPEvent.add)).waiting = false := by
  decide

/-! ## Lemmas about the DeadLetterQueue model -/

/-- In-place mutation of one list element preserves the list length. -/
theorem updateFirst_length {β : Type} [DecidableEq β] (l : List β) (x : β)
    (f : β → β) : (updateFirst l x f).length = l.length := by
  induction l with
  | nil => rfl
  | cons y ys ih =>
    simp only [updateFirst]
    split
    · simp
    · simp [ih]

/-- If `x` is in the list, its mutated form is in the mutated list. -/
theorem mem_updateFirst_self {β : Type} [DecidableEq β] (l : List β) (x : β)
    (f : β → β) (hx : x ∈ l) : f x ∈ updateFirst l x f := by
  induction l with
  | nil => cases hx
  | cons y ys ih =>
    simp only [updateFirst]
    split
    · rename_i h
      rw [h]
      exact List.mem_cons_self _ _
    · rename_i h
      rcases List.mem_cons.mp hx with h1 | h2
      · exact absurd h1.symm h
      · exact List.mem_cons_of_mem _ (ih h2)

/-- A property preserved by the mutation function survives in-place
mutation of one element. -/
theorem updateFirst_exists {β : Type} [DecidableEq β] (P : β → Prop)
    (l : List β) (x : β) (f : β → β) (hf : ∀ z, P z → P (f z))
    (h : ∃ z ∈ l, P z) : ∃ z ∈ updateFirst l x f, P z := by
  induction l with
  | nil =>
    obtain ⟨z, hz, _⟩ := h
    cases hz
  | cons y ys ih =>
    simp only [updateFirst]
    obtain ⟨z, hz, hP⟩ := h
    split
    · rcases List.mem_cons.mp hz with h1 | h2
      · exact ⟨f y, List.mem_cons_self _ _, h1 ▸ hf z hP⟩
      · exact ⟨z, List.mem_cons_of_mem _ h2, hP⟩
    · rcases List.mem_cons.mp hz with h1 | h2
      · exact ⟨z, h1 ▸ List.mem_cons_self _ _, hP⟩
      · obtain ⟨w, hw, hwP⟩ := ih ⟨z, h2, hP⟩
        exact ⟨w, List.mem_cons_of_mem _ hw, hwP⟩

/-- Through any sequence of DLQ operations containing no successful
mark_processed, an entry with a given item and at least `m` recorded
attempts survives: put only appends, and a failure mark only increments
an attempt counter in place. -/
theorem dlq_persist_aux {α : Type} [DecidableEq α] (st : AppSettings)
    (it : α) (m : Nat) :
    ∀ (ops : List (DLQOp α)) (s : DLQState α),
    (ops.all fun op => !op.isMarkSuccess) = true →
    (∃ z ∈ s.entries, z.item = it ∧ m ≤ z.attempts) →
    ∃ z ∈ (dlqRun st s ops).entries, z.item = it ∧ m ≤ z.attempts := by
  intro ops
  induction ops with
  | nil =>
    intro s _ h
    exact h
  | cons op rest ih =>
    intro s hall h
    simp only [List.all_cons, Bool.and_eq_true] at hall
    have hstep : ∃ z ∈ (dlqApply st s op).entries,
        z.item = it ∧ m ≤ z.attempts := by
      cases op with
      | put i er et mt c now =>
        simp only [dlqApply, dlqPut]
        split
        · obtain ⟨z, hz, hP⟩ := h
          exact ⟨z, List.mem_append_left _ hz, hP⟩
        · exact h
      | mark e success now j =>
        cases success with
        | true => simp [DLQOp.isMarkSuccess] at hall
        | false =>
          simp only [dlqApply, dlqMarkProcessed]
          split
          · simp only [Bool.false_eq_true, if_false]
            exact updateFirst_exists _ s.entries e _
              (fun z hz => ⟨hz.1, le_trans hz.2 (Nat.le_succ _)⟩) h
          · exact h
    exact ih (dlqApply st s op) hall.2 hstep

/-- C5: get_retry_items never returns an entry whose attempts have
reached max_retries (its filter requires attempts < max_retries); in
particular an exhausted entry is never returned; and through any further
operation sequence without a successful mark_processed, an entry with
the exhausted item remains stored with attempts still at or above
max_retries: the DLQ never auto-discards it. -/
theorem dlq_exhausted_inert {α : Type} [DecidableEq α] (st : AppSettings)
    (s : DLQState α) (now : ℚ) (e : DLQEntry α) (ops : List (DLQOp α))
    (he : e ∈ s.entries) (hex : s.max_retries ≤ e.attempts)
    (hops : (ops.all fun op => !op.isMarkSuccess) = true) :
    ((dlqGetRetryItems s now).all fun x =>
      decide (x.attempts < s.max_retries)) = true ∧
    e ∉ dlqGetRetryItems s now ∧
    ((dlqRun st s ops).entries.any fun x =>
      decide (x.item = e.item) &&
        decide (s.max_retries ≤ x.attempts)) = true := by
  refine ⟨?_, ?_, ?_⟩
  · simp only [dlqGetRetryItems, List.all_eq_true]
    intro x hx
    exact ((Bool.and_eq_true _ _).mp (List.mem_filter.mp hx).2).1
  · intro hcon
    have h2 := (List.mem_filter.mp hcon).2
    simp only [Bool.and_eq_true, decide_eq_true_eq] at h2
    omega
  · obtain ⟨z, hz, h1, h2⟩ := dlq_persist_aux st e.item s.max_retries ops s
      hops ⟨e, he, rfl, hex⟩
    simp only [List.any_eq_true, Bool.and_eq_true, decide_eq_true_eq]
    exact ⟨z, hz, h1, h2⟩

/-- Witness for C5: a DLQ with max_retries 2 holding an entry with
attempts 2, run through a put and a failure mark. -/
theorem dlq_exhausted_inert_wit :
    dlqSampleEntry ∈ dlqSampleState.entries ∧
    dlqSampleState.max_retries ≤ dlqSampleEntry.attempts ∧
    (dlqSampleOps.all fun op => !op.isMarkSuccess) = true ∧
    (((dlqGetRetryItems dlqSampleState 10).all fun x =>
      decide (x.attempts < dlqSampleState.max_retries)) = true ∧
    dlqSampleEntry ∉ dlqGetRetryItems dlqSampleState 10 ∧
    ((dlqRun sampleSettings dlqSampleState dlqSampleOps).entries.any
      fun x => decide (x.item = dlqSampleEntry.item) &&
        decide (dlqSampleState.max_retries ≤ x.attempts)) = true) :=
  ⟨by with_unfolding_all decide, by with_unfolding_all decide,
    by with_unfolding_all decide,
    dlq_exhausted_inert sampleSettings dlqSampleState 10 dlqSampleEntry
      dlqSampleOps (by with_unfolding_all decide)
      (by with_unfolding_all decide) (by with_unfolding_all decide)⟩

/-- C6: an entry with attempts < max_retries is returned by
get_retry_items once its next_retry time has elapsed;
mark_processed(entry, success=True) removes it from the queue;
mark_processed(entry, success=False) leaves it in place (queue length
unchanged) with attempts incremented, last_updated stamped, and
next_retry = now + min(retry_delay * 2 ** (attempts - 1) * jitter,
max_delay) computed from the incremented attempts value, where jitter is
the uniform(0.5, 1.5) draw and max_delay is settings.RETRY_MAX_DELAY. -/
theorem dlq_retry_lifecycle {α : Type} [DecidableEq α] (st : AppSettings)
    (s : DLQState α) (e : DLQEntry α) (now jitter : ℚ)
    (he : e ∈ s.entries) (hlt : e.attempts < s.max_retries)
    (hone : s.entries.count e = 1)
    (hj1 : 1 / 2 ≤ jitter) (hj2 : jitter ≤ 3 / 2) :
    (e.next_retry ≤ now → e ∈ dlqGetRetryItems s now) ∧
    e ∉ (dlqMarkProcessed st s e true now jitter).entries ∧
    ({ e with attempts := e.attempts + 1, last_updated := now,
               next_retry := now + min
                 (s.retry_delay * 2 ^ (e.attempts + 1 - 1) * jitter)
                 st.RETRY_MAX_DELAY } : DLQEntry α) ∈
      (dlqMarkProcessed st s e false now jitter).entries ∧
    (dlqMarkProcessed st s e false now jitter).entries.length =
      s.entries.length := by
  refine ⟨?_, ?_, ?_, ?_⟩
  · intro hnow
    refine List.mem_filter.mpr ⟨he, ?_⟩
    simp [hlt, hnow]
  · have hcount : (s.entries.erase e).count e = 0 := by
      rw [List.count_erase_self]
      omega
    have hnot : e ∉ s.entries.erase e := List.count_eq_zero.mp hcount
    simpa [dlqMarkProcessed, he] using hnot
  · have hmem := mem_updateFirst_self s.entries e
      (fun x => { x with attempts := x.attempts + 1, last_updated := now,
                         next_retry := now + min
                           (s.retry_delay * 2 ^ (x.attempts + 1 - 1) * jitter)
                           st.RETRY_MAX_DELAY }) he
    simpa [dlqMarkProcessed, he] using hmem
  · simp [dlqMarkProcessed, he, updateFirst_length]

/-- Witness for C6: fresh entry with attempts 0 in a DLQ with
max_retries 2, queried at time 10 with unit jitter. -/
theorem dlq_retry_lifecycle_wit :
    dlqFreshEntry ∈ dlqFreshState.entries ∧
    dlqFreshEntry.attempts < dlqFreshState.max_retries ∧
    dlqFreshState.entries.count dlqFreshEntry = 1 ∧
    (1 : ℚ) / 2 ≤ 1 ∧ (1 : ℚ) ≤ 3 / 2 ∧
    ((dlqFreshEntry.next_retry ≤ 10 →
      dlqFreshEntry ∈ dlqGetRetryItems dlqFreshState 10) ∧
    dlqFreshEntry ∉
      (dlqMarkProcessed sampleSettings dlqFreshState dlqFreshEntry true
        10 1).entries ∧
    ({ dlqFreshEntry with
        attempts := dlqFreshEntry.attempts + 1, last_updated := 10,
        next_retry := 10 + min
                        (dlqFreshState.retry_delay *
                          2 ^ (dlqFreshEntry.attempts + 1 - 1) * 1)
                        sampleSettings.RETRY_MAX_DELAY } : DLQEntry Nat) ∈
      (dlqMarkProcessed sampleSettings dlqFreshState dlqFreshEntry false
        10 1).entries ∧
    (dlqMarkProcessed sampleSettings dlqFreshState dlqFreshEntry false
        10 1).entries.length = dlqFreshState.entries.length) :=
  ⟨by with_unfolding_all decide, by with_unfolding_all decide,
    by with_unfolding_all decide, by norm_num, by norm_num,
    dlq_retry_lifecycle sampleSettings dlqFreshState dlqFreshEntry 10 1
      (by with_unfolding_all decide) (by with_unfolding_all decide)
      (by with_unfolding_all decide) (by norm_num) (by norm_num)⟩

/-- C8 counterexample: at the first attempt with reconnect_interval 5 and
matching retry parameters (initial_delay 5, max_delay 300, factor 2) and
the same jitter draw 1/2 on both sides, the retry primitive sleeps
min(5 * 1/2, 300) = 5/2 while _handle_reconnect sleeps
min(5 + 5 * 0.1 * 1/2, 300) = 21/4.  The two delay computations are not
equal as functions: the reconnect path uses additive jitter and a
hard-coded 300-second cap, a separate implementation. -/
theorem reconnect_formula_differs :
    (retryRun (fun _ : Unit => true)
        (fun _ => (Except.error () : Except Unit Unit)) 1 5 300 2
        (fun _ => 1 / 2)).sleeps = [5 / 2] ∧
    reconnectDelay 5 1 (1 / 2) = 21 / 4 ∧ (5 : ℚ) / 2 ≠ 21 / 4 := by
  refine ⟨by with_unfolding_all decide, ?_, by norm_num⟩
  norm_num [reconnectDelay, reconnectBaseDelay]

/-- C8 (amended): the reconnect backoff of _handle_reconnect is its own
formula — min(base * (1 + u/10), 300) with base =
min(interval * 2 ** (n-1), 300) and additive jitter fraction u/10 —
rather than the section 4.1 formula min(delay * jitter, max_delay); it
never sleeps more than the hard-coded 300 seconds; and the give-up test
`attempts > max_reconnect_attempts > 0` makes reconnect attempts
unlimited exactly when max_reconnect_attempts is 0 or negative. -/
theorem reconnect_policy (m a : ℤ) (interval u : ℚ) (n : Nat) :
    (reconnectGivesUp m a = true ↔ a > m ∧ m > 0) ∧
    reconnectDelay interval n u ≤ 300 ∧
    reconnectDelay interval n u =
      min (reconnectBaseDelay interval n * (1 + u / 10)) 300 := by
  refine ⟨?_, ?_, ?_⟩
  · simp [reconnectGivesUp]
  · simp only [reconnectDelay]
    exact min_le_right _ _
  · simp only [reconnectDelay]
    congr 1
    ring

/-- C9 counterexample: construction succeeds with batch_size -1 (not a
positive int), max_wait_seconds -1 (not positive) and retry_attempts -2,
storing the invalid values verbatim; and async_retry accepts
max_retries -5 and backoff_factor 1/2 (not greater than 1) without any
error.  No configuration validation raises at construction time. -/
theorem bp_construct_invalid_accepted :
    batchProcessorInit sampleSettings (some (-1)) (some (-1)) (some (-2))
        (some 1) = Except.ok
      { batch_size := -1, max_wait_seconds := -1, retry_attempts := -2,
        retry_delay := 1 } ∧
    (asyncRetryResolve sampleSettings (some (-5)) none none
        (some (1 / 2))).max_retries = -5 ∧
    (asyncRetryResolve sampleSettings (some (-5)) none none
        (some (1 / 2))).backoff_factor = 1 / 2 := by
  exact ⟨rfl, rfl, rfl⟩

/-- C9 (amended): neither BatchProcessor.__init__ nor the retry
decorators validate their configuration: construction always succeeds;
a nonzero batch_size argument (even a negative one) is stored verbatim,
while a falsy batch_size (None or 0) silently selects the settings
default instead of being rejected. -/
theorem bp_construct_never_raises (st : AppSettings) (bs : Option ℤ)
    (mw : Option ℚ) (ra : Option ℤ) (rd : Option ℚ) (v : ℤ)
    (hv : v ≠ 0) :
    batchProcessorInit st bs mw ra rd =
      Except.ok (batchProcessorInitCfg st bs mw ra rd) ∧
    (batchProcessorInitCfg st (some v) mw ra rd).batch_size = v ∧
    (batchProcessorInitCfg st none mw ra rd).batch_size =
      st.STREAM_BATCH_SIZE ∧
    (batchProcessorInitCfg st (some 0) mw ra rd).batch_size =
      st.STREAM_BATCH_SIZE := by
  refine ⟨rfl, ?_, rfl, rfl⟩
  simp [batchProcessorInitCfg, pyOrInt, hv]

/-- Witness for C9 at an invalid negative batch_size. -/
theorem bp_construct_never_raises_wit :
    (-1 : ℤ) ≠ 0 ∧
    (batchProcessorInit sampleSettings none none none none =
      Except.ok (batchProcessorInitCfg sampleSettings none none none
        none) ∧
    (batchProcessorInitCfg sampleSettings (some (-1)) none none
      none).batch_size = -1 ∧
    (batchProcessorInitCfg sampleSettings none none none
      none).batch_size = sampleSettings.STREAM_BATCH_SIZE ∧
    (batchProcessorInitCfg sampleSettings (some 0) none none
      none).batch_size = sampleSettings.STREAM_BATCH_SIZE) :=
  ⟨by decide,
    bp_construct_never_raises sampleSettings none none none none (-1)
      (by decide)⟩

/-- C10: the constructor stores retry_attempts and retry_delay on the
instance (any nonzero values are kept verbatim), yet the retry wrapping
of _process_batch is fixed by the class-level decorator
async_retry(max_retries=3): its parameters are 3 retries plus the
settings-derived delay defaults, independent of the constructor
arguments, so a batch whose processing always raises is attempted
exactly 3 + 1 = 4 times whatever retry_attempts and retry_delay were
passed. -/
theorem bp_retry_args_unused (st : AppSettings) (bs : Option ℤ)
    (mw : Option ℚ) (ra : ℤ) (rd : ℚ) (hra : ra ≠ 0) (hrd : rd ≠ 0)
    (d md f : ℚ) (j : Nat → ℚ) :
    (batchProcessorInitCfg st bs mw (some ra) (some rd)).retry_attempts
      = ra ∧
    (batchProcessorInitCfg st bs mw (some ra) (some rd)).retry_delay
      = rd ∧
    processBatchRetryArgs st =
      { max_retries := 3, initial_delay := st.RETRY_BACKOFF_FACTOR,
        max_delay := st.RETRY_MAX_DELAY,
        backoff_factor := st.RETRY_BACKOFF_FACTOR } ∧
    (retryRun (fun _ : Unit => true)
        (fun _ => (Except.error () : Except Unit Unit))
        (processBatchRetryArgs st).max_retries.toNat d md f j).invocations
      = 3 + 1 := by
  refine ⟨?_, ?_, rfl, ?_⟩
  · simp [batchProcessorInitCfg, pyOrInt, hra]
  · simp [batchProcessorInitCfg, pyOrRat, hrd]
  · have h := @retryAux_alwaysFail Unit Unit (fun _ => ())
      (fun _ : Unit => true) (fun _ => rfl) 3 md f j 3 0 d (by omega)
    have h2 : (processBatchRetryArgs st).max_retries.toNat = 3 := rfl
    rw [h2, retryRun]
    simpa using congrArg RetryTrace.invocations h

/-- Witness for C10 with retry_attempts 7 and retry_delay 5. -/
theorem bp_retry_args_unused_wit :
    (7 : ℤ) ≠ 0 ∧ (5 : ℚ) ≠ 0 ∧
    ((batchProcessorInitCfg sampleSettings none none (some 7)
        (some 5)).retry_attempts = 7 ∧
    (batchProcessorInitCfg sampleSettings none none (some 7)
        (some 5)).retry_delay = 5 ∧
    processBatchRetryArgs sampleSettings =
      { max_retries := 3,
        initial_delay := sampleSettings.RETRY_BACKOFF_FACTOR,
        max_delay := sampleSettings.RETRY_MAX_DELAY,
        backoff_factor := sampleSettings.RETRY_BACKOFF_FACTOR } ∧
    (retryRun (fun _ : Unit => true)
        (fun _ => (Except.error () : Except Unit Unit))
        (processBatchRetryArgs sampleSettings).max_retries.toNat 1 10 2
        (fun _ => 1)).invocations = 3 + 1) :=
  ⟨by decide, by with_unfolding_all decide,
    bp_retry_args_unused sampleSettings none none 7 5 (by decide)
      (by with_unfolding_all decide) 1 10 2 (fun _ => 1)⟩
